import Mathlib

/-!
Shallow embedding of the numerical core of the PID-Controller-Tuner
repository, together with theorems settling the claims about its
specification.

Conventions of the embedding:
* Python floats are modelled as exact rationals (`ℚ`); the IEEE value
  `float('inf')` returned by the Ziegler-Nichols P branch is modelled with
  `WithTop ℚ`.
* Python exceptions are modelled with `Except`: an exception raised during
  an operation means the operation returns `.error e` and produces no
  result.  Python raises `ZeroDivisionError` when a float is divided by
  zero, so divisions whose divisor can be zero on a reachable path go
  through `pydiv` below.
* Selector arguments (`control_type`, `criterion`) are `String`s, exactly
  as in the source, so that unsupported selectors are expressible.
-/

/-- Tuning result `(Kp, Ti, Td)` as returned by both tuning functions in
`src/tuning/ziegler_nichols.py` and `src/tuning/cohen_coon.py`.  `Ti` lives
in `WithTop ℚ` because the P branch of Ziegler-Nichols returns
`float('inf')` for `Ti`. -/
structure PIDParams where
  Kp : ℚ
  Ti : WithTop ℚ
  Td : ℚ
deriving DecidableEq, Repr

/-- The distinct `raise TuningError(...)` sites of the two tuning
functions, distinguished by the condition that triggers them (the source
distinguishes them only by message text). -/
inductive TuningErrorKind where
  | invalidK
  | invalidL
  | invalidT
  | invalidControlType
  | invalidCriterion
deriving DecidableEq, Repr

/-- Classifier for the claims' "InvalidModel-kind" errors: the three
validation failures on the FOPDT parameters themselves. -/
def TuningErrorKind.isInvalidModel : TuningErrorKind → Bool
  | .invalidK => true
  | .invalidL => true
  | .invalidT => true
  | _ => false

/-- Exceptions that can escape a tuning call: a raised `TuningError`, or
Python's `ZeroDivisionError` propagating out of a float division whose
divisor is zero. -/
inductive TuningExc where
  | tuning (k : TuningErrorKind)
  | zeroDivision
deriving DecidableEq, Repr

/-- Python float division: `a / b` raises `ZeroDivisionError` when `b == 0`
and otherwise yields the exact quotient. -/
def pydiv (a b : ℚ) : Except TuningExc ℚ :=
  if b = 0 then .error .zeroDivision else .ok (a / b)

/-- Condition of the non-fatal precision warning printed by
`sintonia_pid_ziegler_nichols` (src/src/tuning/ziegler_nichols.py line
187): `L / T > 0.5`.  The source only prints; the computation proceeds, so
the warning is modelled as this separate flag. -/
def zn_high_ratio_warning (L T : ℚ) : Bool :=
  decide (L / T > 1 / 2)

/-- Embedding of `sintonia_pid_ziegler_nichols`
(src/src/tuning/ziegler_nichols.py lines 162-214): validation of K, L, T
and `control_type` in source order, then the Ziegler-Nichols formulas per
control type.  The `L / T > 0.5` branch only prints a warning (see
`zn_high_ratio_warning`) and does not affect the result. -/
def sintonia_pid_ziegler_nichols (K L T : ℚ)
    (control_type : String) : Except TuningExc PIDParams :=
  if K ≤ 0 then .error (.tuning .invalidK)
  else if L < 0 then .error (.tuning .invalidL)
  else if T ≤ 0 then .error (.tuning .invalidT)
  else if control_type ∉ (["P", "PI", "PID"] : List String) then
    .error (.tuning .invalidControlType)
  else if control_type = "P" then
    match pydiv T (L * K) with
    | .error e => .error e
    | .ok kp => .ok ⟨kp, ⊤, 0⟩
  else if control_type = "PI" then
    match pydiv (9 / 10 * T) (L * K) with
    | .error e => .error e
    | .ok kp => .ok ⟨kp, ((333 / 100 * L : ℚ) : WithTop ℚ), 0⟩
  else
    match pydiv (6 / 5 * T) (L * K) with
    | .error e => .error e
    | .ok kp => .ok ⟨kp, ((2 * L : ℚ) : WithTop ℚ), 1 / 2 * L⟩

/-- Embedding of `sintonia_pid_cohen_coon`
(src/src/tuning/cohen_coon.py lines 189-243): validation of K, L, T,
`criterion` and `control_type` in source order, then the Cohen-Coon
formulas per criterion (with the `L/T < 0.3` split inside IAE), and the
final `Td = 0` override for PI controllers. -/
def sintonia_pid_cohen_coon (K L T : ℚ)
    (criterion control_type : String) : Except TuningExc PIDParams :=
  if K ≤ 0 then .error (.tuning .invalidK)
  else if L < 0 then .error (.tuning .invalidL)
  else if T ≤ 0 then .error (.tuning .invalidT)
  else if criterion ∉ (["IAE", "ISE", "ITAE"] : List String) then
    .error (.tuning .invalidCriterion)
  else if control_type ∉ (["PI", "PID"] : List String) then
    .error (.tuning .invalidControlType)
  else
    let r := L / T
    let branch : Except TuningExc (ℚ × ℚ × ℚ) :=
      if criterion = "IAE" then
        if r < 3 / 10 then
          match pydiv (27 / 20 * T) (L * K) with
          | .error e => .error e
          | .ok kp => .ok (kp, 5 / 2 * L, 37 / 100 * L)
        else
          match pydiv T (L * K) with
          | .error e => .error e
          | .ok q => .ok (q * (4 / 3 + r / 4),
                          L * (32 + 6 * r) / (13 + 8 * r),
                          4 * L / (11 + 2 * r))
      else if criterion = "ISE" then
        match pydiv (299 / 200 * T) (L * K) with
        | .error e => .error e
        | .ok kp => .ok (kp, 157 / 100 * L, 147 / 200 * L)
      else
        match pydiv (859 / 1000 * T) (L * K) with
        | .error e => .error e
        | .ok kp => .ok (kp, 337 / 500 * L, 67 / 500 * L)
    match branch with
    | .error e => .error e
    | .ok (kp, ti, td) =>
        .ok ⟨kp, (ti : WithTop ℚ), if control_type = "PI" then 0 else td⟩

/-!
Metrics extractor (src/src/simulation/metrics.py).
-/

/-- Model of a Python float value for the finiteness validation of the
metrics extractor: either a finite value (an exact rational) or one of the
non-finite IEEE values NaN, +Inf, -Inf. -/
inductive PyFloat where
  | fin (q : ℚ)
  | nan
  | inf
  | ninf
deriving DecidableEq, Repr

/-- Counterpart of `np.isfinite` on a single value. -/
def PyFloat.isfinite : PyFloat → Bool
  | .fin _ => true
  | _ => false

/-- The rational value of a finite `PyFloat`.  Only ever applied after the
finiteness validation has passed; the value on non-finite inputs is
irrelevant junk. -/
def PyFloat.val : PyFloat → ℚ
  | .fin q => q
  | _ => 0

/-- The distinct `raise MetricaError(...)` sites of
`calcular_metricas_respuesta` (src/src/simulation/metrics.py lines
220-246), distinguished by triggering condition. -/
inductive MetricaError where
  | tooFewSamples
  | sizeMismatch
  | nonFiniteT
  | nonFiniteY
  | zeroRef
  | badTolerance
deriving DecidableEq, Repr

/-- Counterpart of `np.max` on a non-empty array (0 on the empty list,
which is unreachable after validation). -/
def listMaxD : List ℚ → ℚ
  | [] => 0
  | h :: tl => tl.foldl max h

/-- Settling-time block of `calcular_metricas_respuesta`
(src/src/simulation/metrics.py lines 268-288): `within` marks samples whose
error is inside the band; if no sample is ever inside, `ts = t[-1]`;
otherwise take the indices outside the band, and `ts` is `t[0]` when there
are none, else `t[last_out + 1]` clamped to `t[-1]` when `last_out` is the
final index. -/
def settling_ts (t y : List ℚ) (yref band : ℚ) : ℚ :=
  let within := y.map (fun v => decide (|v - yref| ≤ band))
  if within.any id = false then t.getLastD 0
  else
    let indices_out := (List.range t.length).filter
      (fun i => ! within.getD i true)
    match indices_out.getLast? with
    | none => t.headD 0
    | some last_out =>
        if last_out + 1 < t.length then t.getD (last_out + 1) 0
        else t.getLastD 0

/-- Computation part of `calcular_metricas_respuesta`
(src/src/simulation/metrics.py lines 252-302), on the already-validated
finite values: the returned dictionary with its seven keys in source
order. -/
def metricas_core (t y : List ℚ) (yref tolerance : ℚ) :
    List (String × ℚ) :=
  let y_max := listMaxD y
  let y_final := y.getLastD 0
  let ess := yref - y_final
  let settling_band := tolerance * |yref|
  [("ts", settling_ts t y yref settling_band),
   ("Mp", (y_max - yref) / |yref| * 100),
   ("ess", ess),
   ("ess_percent", ess / yref * 100),
   ("y_max", y_max),
   ("y_final", y_final),
   ("settling_band", settling_band)]

/-- Embedding of `calcular_metricas_respuesta`
(src/src/simulation/metrics.py lines 19-302): the validation chain in
source order (minimum sample count on `t`, equal lengths, finiteness of
`t` then `y`, non-zero reference, tolerance strictly inside (0, 1)),
followed by the metric computation on the finite values. -/
def calcular_metricas_respuesta (t y : List PyFloat)
    (yref tolerance : ℚ) : Except MetricaError (List (String × ℚ)) :=
  if t.length < 10 then .error .tooFewSamples
  else if t.length ≠ y.length then .error .sizeMismatch
  else if t.any (fun x => ! x.isfinite) then .error .nonFiniteT
  else if y.any (fun x => ! x.isfinite) then .error .nonFiniteY
  else if yref = 0 then .error .zeroRef
  else if tolerance ≤ 0 ∨ 1 ≤ tolerance then .error .badTolerance
  else .ok (metricas_core (t.map PyFloat.val) (y.map PyFloat.val)
              yref tolerance)

/-!
Transfer function and open-loop simulation
(src/src/core/transfer_function.py, src/src/simulation/open_loop.py).
-/

/-- Complex number with rational parts, the value type for poles of the
embedded transfer functions. -/
structure CRat where
  re : ℚ
  im : ℚ
deriving DecidableEq, Repr

/-- Transfer function as validated coefficient lists, descending powers of
s, as produced by `create_transfer_function`
(src/src/core/transfer_function.py lines 17-94). -/
structure TransferFunction where
  num : List ℚ
  den : List ℚ
deriving DecidableEq, Repr

/-- The complex number `z` is a root of the descending-coefficient
polynomial `coeffs` (Horner evaluation, as `np.polyval`); used to state
what a pole of a transfer function is. -/
def IsRootC (coeffs : List ℚ) (z : ℂ) : Prop :=
  coeffs.foldl (fun acc c => acc * z + (c : ℂ)) 0 = 0

/-- Modelled from the spec: `get_poles`
(src/src/core/transfer_function.py lines 97-116) returns "complex roots of
the denominator polynomial", delegating the numerical root-finding to the
external python-control library, which is not part of this repository.
The model is exact on first-order denominators `[a, b]` with `a ≠ 0`
(single root `-b/a`); denominators outside that fragment are not modelled
and yield `[]`. -/
def get_poles (tf : TransferFunction) : List CRat :=
  match tf.den with
  | [a, b] => if a = 0 then [] else [⟨-b / a, 0⟩]
  | _ => []

/-- Embedding of `is_stable` (src/src/core/transfer_function.py lines
140-170): all poles must have real part strictly below `-tolerance`;
default tolerance 1e-10. -/
def is_stable (tf : TransferFunction)
    (tolerance : ℚ := 1 / 10000000000) : Bool :=
  (get_poles tf).all (fun p => decide (p.re < -tolerance))

/-- The distinct `raise SimulationError(...)` sites of
`simulate_step_response` (src/src/simulation/open_loop.py lines 90-112),
distinguished by triggering condition. -/
inductive SimulationError where
  | noneTf
  | unstable
  | badNumPoints
  | badInputMagnitude
  | badTFinal
deriving DecidableEq, Repr

/-- Embedding of `_estimate_settling_time`
(src/src/simulation/open_loop.py lines 133-168): default 10.0 when there
are no poles; `max_time` when the slowest pole (largest real part) is not
strictly negative; otherwise `min(-5 / slowest, max_time)`. -/
def estimate_settling_time (tf : TransferFunction)
    (max_time : ℚ := 1000) : ℚ :=
  match get_poles tf with
  | [] => 10
  | p :: ps =>
      let slowest := (ps.map CRat.re).foldl max p.re
      if 0 ≤ slowest then max_time
      else min (-5 / slowest) max_time

/-- Embedding of the validation and time-horizon logic of
`simulate_step_response` (src/src/simulation/open_loop.py lines 90-115):
the `None` check, the stability check, the `num_points` and
`input_magnitude` checks, and the selection of the simulation horizon
(`_estimate_settling_time` when `t_final` is not supplied, the caller's
positive value otherwise).  The numerical step response itself is
delegated to the external python-control `step_response` and is not
modelled; the function returns the horizon `t_final` from which the time
grid `np.linspace(0, t_final, num_points)` is built. -/
def simulate_step_response_horizon (tf : Option TransferFunction)
    (t_final : Option ℚ) (num_points : ℤ) (input_magnitude : ℚ) :
    Except SimulationError ℚ :=
  match tf with
  | none => .error .noneTf
  | some tf =>
      if is_stable tf = false then .error .unstable
      else if num_points < 10 then .error .badNumPoints
      else if input_magnitude ≤ 0 then .error .badInputMagnitude
      else
        match t_final with
        | none => .ok (estimate_settling_time tf)
        | some v => if v ≤ 0 then .error .badTFinal else .ok v

/-!
Helper lemmas for evaluating the embedded functions.
-/

theorem pydiv_ne_zero (a b : ℚ) (hb : b ≠ 0) : pydiv a b = .ok (a / b) := by
  simp [pydiv, hb]

theorem pydiv_zero (a : ℚ) : pydiv a 0 = .error .zeroDivision := by
  simp [pydiv]

/-- Claim C1 (counterexample): at K=1, L=0, T=10 — which passes validation,
since only L < 0 is rejected — the PID branch divides by L*K = 0 and the
call raises ZeroDivisionError instead of returning the formula values. -/
theorem C1_zn_L_zero_counterexample :
    sintonia_pid_ziegler_nichols 1 0 10 "PID" = .error .zeroDivision := by
  simp only [sintonia_pid_ziegler_nichols, pydiv]
  norm_num

/-- Claim C1 (amended): for every FOPDT model with K > 0, L > 0, T > 0 that
passes validation, Ziegler-Nichols tuning returns exactly the formulas per
control type — P: Kp = T/(L*K), Ti = ∞, Td = 0; PI: Kp = 0.9*T/(L*K),
Ti = 3.33*L, Td = 0; PID: Kp = 1.2*T/(L*K), Ti = 2*L, Td = 0.5*L — and in
particular K=1, L=2, T=10 with PID gives Kp = 6, Ti = 4, Td = 1. -/
theorem C1_zn_formulas (K L T : ℚ) (hK : 0 < K) (hL : 0 < L) (hT : 0 < T) :
    sintonia_pid_ziegler_nichols K L T "P" =
      .ok ⟨T / (L * K), ⊤, 0⟩ ∧
    sintonia_pid_ziegler_nichols K L T "PI" =
      .ok ⟨9 / 10 * T / (L * K), ((333 / 100 * L : ℚ) : WithTop ℚ), 0⟩ ∧
    sintonia_pid_ziegler_nichols K L T "PID" =
      .ok ⟨6 / 5 * T / (L * K), ((2 * L : ℚ) : WithTop ℚ), 1 / 2 * L⟩ ∧
    sintonia_pid_ziegler_nichols 1 2 10 "PID" =
      .ok ⟨6, ((4 : ℚ) : WithTop ℚ), 1⟩ := by
  have hLK : L * K ≠ 0 := (mul_pos hL hK).ne'
  have h1 : ¬ K ≤ 0 := not_le.mpr hK
  have h2 : ¬ L < 0 := not_lt.mpr hL.le
  have h3 : ¬ T ≤ 0 := not_le.mpr hT
  refine ⟨?_, ?_, ?_, ?_⟩
  · simp [sintonia_pid_ziegler_nichols, pydiv, h1, h2, h3, hLK]
  · simp [sintonia_pid_ziegler_nichols, pydiv, h1, h2, h3, hLK]
  · simp [sintonia_pid_ziegler_nichols, pydiv, h1, h2, h3, hLK]
  · simp only [sintonia_pid_ziegler_nichols, pydiv]
    norm_num
    simp

/-- Claim C1 (witness): the amended theorem applied at the concrete model
K=1, L=2, T=10. -/
theorem C1_zn_formulas_witness :
    sintonia_pid_ziegler_nichols 1 2 10 "PID" =
      .ok ⟨6, ((4 : ℚ) : WithTop ℚ), 1⟩ :=
  (C1_zn_formulas 1 2 10 (by norm_num) (by norm_num) (by norm_num)).2.2.2

/-- Claim C2 (counterexample): at K=1, L=0, T=10 — which passes validation —
the IAE branch (ratio 0 < 0.3) divides by L*K = 0 and the call raises
ZeroDivisionError instead of returning the formula values. -/
theorem C2_cc_L_zero_counterexample :
    sintonia_pid_cohen_coon 1 0 10 "IAE" "PID" = .error .zeroDivision := by
  simp only [sintonia_pid_cohen_coon, pydiv]
  norm_num

/-- Claim C2 (amended): for every FOPDT model with K > 0, L > 0, T > 0,
Cohen-Coon tuning with r = L/T returns the formulas of the selected
criterion — IAE with r < 0.3: Kp = 1.35*T/(L*K), Ti = 2.5*L, Td = 0.37*L;
IAE with r ≥ 0.3: Kp = (T/(L*K))*(4/3 + r/4), Ti = L*(32+6r)/(13+8r),
Td = 4L/(11+2r); ISE: Kp = 1.495*T/(L*K), Ti = 1.57*L, Td = 0.735*L;
ITAE: Kp = 0.859*T/(L*K), Ti = 0.674*L, Td = 0.134*L — with Td forced to 0
for control_type PI under every criterion, and in particular K=1, L=2,
T=10 with IAE/PID gives Kp = 6.75, Ti = 5, Td = 0.74. -/
theorem C2_cc_formulas (K L T : ℚ) (hK : 0 < K) (hL : 0 < L) (hT : 0 < T) :
    (L / T < 3 / 10 →
      sintonia_pid_cohen_coon K L T "IAE" "PID" =
        .ok ⟨27 / 20 * T / (L * K),
             ((5 / 2 * L : ℚ) : WithTop ℚ), 37 / 100 * L⟩) ∧
    (3 / 10 ≤ L / T →
      sintonia_pid_cohen_coon K L T "IAE" "PID" =
        .ok ⟨T / (L * K) * (4 / 3 + (L / T) / 4),
             ((L * (32 + 6 * (L / T)) / (13 + 8 * (L / T)) : ℚ) : WithTop ℚ),
             4 * L / (11 + 2 * (L / T))⟩) ∧
    sintonia_pid_cohen_coon K L T "ISE" "PID" =
      .ok ⟨299 / 200 * T / (L * K),
           ((157 / 100 * L : ℚ) : WithTop ℚ), 147 / 200 * L⟩ ∧
    sintonia_pid_cohen_coon K L T "ITAE" "PID" =
      .ok ⟨859 / 1000 * T / (L * K),
           ((337 / 500 * L : ℚ) : WithTop ℚ), 67 / 500 * L⟩ ∧
    (∀ cr ∈ (["IAE", "ISE", "ITAE"] : List String),
      ∃ p : PIDParams, sintonia_pid_cohen_coon K L T cr "PI" = .ok p ∧
        p.Td = 0) ∧
    sintonia_pid_cohen_coon 1 2 10 "IAE" "PID" =
      .ok ⟨27 / 4, ((5 : ℚ) : WithTop ℚ), 37 / 50⟩ := by
  have hLK : L * K ≠ 0 := (mul_pos hL hK).ne'
  have h1 : ¬ K ≤ 0 := not_le.mpr hK
  have h2 : ¬ L < 0 := not_lt.mpr hL.le
  have h3 : ¬ T ≤ 0 := not_le.mpr hT
  refine ⟨?_, ?_, ?_, ?_, ?_, ?_⟩
  · intro hr
    simp [sintonia_pid_cohen_coon, pydiv, h1, h2, h3, hLK, hr]
  · intro hr
    simp [sintonia_pid_cohen_coon, pydiv, h1, h2, h3, hLK, not_lt.mpr hr]
  · simp [sintonia_pid_cohen_coon, pydiv, h1, h2, h3, hLK]
  · simp [sintonia_pid_cohen_coon, pydiv, h1, h2, h3, hLK]
  · intro cr hcr
    simp only [List.mem_cons, List.not_mem_nil, or_false] at hcr
    rcases hcr with rfl | rfl | rfl
    · by_cases hr : L / T < 3 / 10
      · exact ⟨⟨27 / 20 * T / (L * K), ((5 / 2 * L : ℚ) : WithTop ℚ), 0⟩,
          by simp [sintonia_pid_cohen_coon, pydiv, h1, h2, h3, hLK, hr], rfl⟩
      · exact ⟨⟨T / (L * K) * (4 / 3 + (L / T) / 4),
          ((L * (32 + 6 * (L / T)) / (13 + 8 * (L / T)) : ℚ) : WithTop ℚ), 0⟩,
          by simp [sintonia_pid_cohen_coon, pydiv, h1, h2, h3, hLK, hr], rfl⟩
    · exact ⟨⟨299 / 200 * T / (L * K), ((157 / 100 * L : ℚ) : WithTop ℚ), 0⟩,
        by simp [sintonia_pid_cohen_coon, pydiv, h1, h2, h3, hLK], rfl⟩
    · exact ⟨⟨859 / 1000 * T / (L * K), ((337 / 500 * L : ℚ) : WithTop ℚ), 0⟩,
        by simp [sintonia_pid_cohen_coon, pydiv, h1, h2, h3, hLK], rfl⟩
  · simp only [sintonia_pid_cohen_coon, pydiv]
    norm_num
    simp

/-- Claim C2 (witness): the amended theorem applied at the concrete model
K=1, L=2, T=10 with criterion IAE. -/
theorem C2_cc_formulas_witness :
    sintonia_pid_cohen_coon 1 2 10 "IAE" "PID" =
      .ok ⟨27 / 4, ((5 : ℚ) : WithTop ℚ), 37 / 50⟩ :=
  (C2_cc_formulas 1 2 10 (by norm_num) (by norm_num) (by norm_num)).2.2.2.2.2

/-- Claim C3: for every FOPDT model with K > 0, T > 0 and L/T > 0.5,
Ziegler-Nichols tuning completes successfully with the same formula values
as for any other valid model — the high-ratio condition only sets the
non-fatal warning flag and never produces an error. -/
theorem C3_zn_high_ratio_warns_not_fails (K L T : ℚ)
    (hK : 0 < K) (hT : 0 < T) (hr : 1 / 2 < L / T) :
    zn_high_ratio_warning L T = true ∧
    sintonia_pid_ziegler_nichols K L T "P" =
      .ok ⟨T / (L * K), ⊤, 0⟩ ∧
    sintonia_pid_ziegler_nichols K L T "PI" =
      .ok ⟨9 / 10 * T / (L * K), ((333 / 100 * L : ℚ) : WithTop ℚ), 0⟩ ∧
    sintonia_pid_ziegler_nichols K L T "PID" =
      .ok ⟨6 / 5 * T / (L * K), ((2 * L : ℚ) : WithTop ℚ), 1 / 2 * L⟩ := by
  have hL : 0 < L := by
    have h2 : 1 / 2 * T < L := (lt_div_iff₀ hT).mp hr
    linarith
  have h := C1_zn_formulas K L T hK hL hT
  refine ⟨?_, h.1, h.2.1, h.2.2.1⟩
  simp only [zn_high_ratio_warning, gt_iff_lt, decide_eq_true_eq]
  linarith

/-- Claim C3 (witness): the theorem applied at K=1, L=6, T=10, the spec's
boundary example L/T = 0.6 > 0.5. -/
theorem C3_witness :
    zn_high_ratio_warning 6 10 = true ∧
    sintonia_pid_ziegler_nichols 1 6 10 "PID" =
      .ok ⟨2, ((12 : ℚ) : WithTop ℚ), 3⟩ := by
  have h := C3_zn_high_ratio_warns_not_fails 1 6 10 (by norm_num)
    (by norm_num) (by norm_num)
  refine ⟨h.1, ?_⟩
  rw [h.2.2.2]
  norm_num

/-- Claim C4: both tuning operations fail with an InvalidModel-kind error
(the K, L or T validation) when K ≤ 0, L < 0 or T ≤ 0, and with the
selector error when the criterion or control_type is outside its supported
set; every failure is an `Except.error`, so no PID parameters are
returned. -/
theorem C4_tuning_validation (K L T : ℚ) (ct cr cct : String) :
    (K ≤ 0 →
      sintonia_pid_ziegler_nichols K L T ct = .error (.tuning .invalidK) ∧
      sintonia_pid_cohen_coon K L T cr cct = .error (.tuning .invalidK) ∧
      TuningErrorKind.invalidK.isInvalidModel = true) ∧
    (0 < K → L < 0 →
      sintonia_pid_ziegler_nichols K L T ct = .error (.tuning .invalidL) ∧
      sintonia_pid_cohen_coon K L T cr cct = .error (.tuning .invalidL) ∧
      TuningErrorKind.invalidL.isInvalidModel = true) ∧
    (0 < K → 0 ≤ L → T ≤ 0 →
      sintonia_pid_ziegler_nichols K L T ct = .error (.tuning .invalidT) ∧
      sintonia_pid_cohen_coon K L T cr cct = .error (.tuning .invalidT) ∧
      TuningErrorKind.invalidT.isInvalidModel = true) ∧
    (0 < K → 0 ≤ L → 0 < T → ct ∉ (["P", "PI", "PID"] : List String) →
      sintonia_pid_ziegler_nichols K L T ct =
        .error (.tuning .invalidControlType)) ∧
    (0 < K → 0 ≤ L → 0 < T → cr ∉ (["IAE", "ISE", "ITAE"] : List String) →
      sintonia_pid_cohen_coon K L T cr cct =
        .error (.tuning .invalidCriterion)) ∧
    (0 < K → 0 ≤ L → 0 < T → cr ∈ (["IAE", "ISE", "ITAE"] : List String) →
      cct ∉ (["PI", "PID"] : List String) →
      sintonia_pid_cohen_coon K L T cr cct =
        .error (.tuning .invalidControlType)) := by
  refine ⟨?_, ?_, ?_, ?_, ?_, ?_⟩
  · intro hK
    exact ⟨by simp [sintonia_pid_ziegler_nichols, hK],
      by simp [sintonia_pid_cohen_coon, hK], rfl⟩
  · intro hK hL
    exact ⟨by simp [sintonia_pid_ziegler_nichols, not_le.mpr hK, hL],
      by simp [sintonia_pid_cohen_coon, not_le.mpr hK, hL], rfl⟩
  · intro hK hL hT
    exact ⟨by simp [sintonia_pid_ziegler_nichols, not_le.mpr hK,
        not_lt.mpr hL, hT],
      by simp [sintonia_pid_cohen_coon, not_le.mpr hK, not_lt.mpr hL, hT],
      rfl⟩
  · intro hK hL hT hct
    simp [sintonia_pid_ziegler_nichols, not_le.mpr hK, not_lt.mpr hL,
      not_le.mpr hT, hct]
  · intro hK hL hT hcr
    simp [sintonia_pid_cohen_coon, not_le.mpr hK, not_lt.mpr hL,
      not_le.mpr hT, hcr]
  · intro hK hL hT hcr hcct
    simp [sintonia_pid_cohen_coon, not_le.mpr hK, not_lt.mpr hL,
      not_le.mpr hT, hcr, hcct]

/-- Claim C4 (witness): the theorem applied at concrete bad inputs — a
negative gain K = -1, an unsupported Ziegler-Nichols control type "X", an
unsupported Cohen-Coon criterion "MSE", and the Cohen-Coon control type
"P" which Cohen-Coon does not support. -/
theorem C4_witness :
    sintonia_pid_ziegler_nichols (-1) 1 5 "PID" =
      .error (.tuning .invalidK) ∧
    sintonia_pid_cohen_coon (-1) 1 5 "IAE" "PID" =
      .error (.tuning .invalidK) ∧
    sintonia_pid_ziegler_nichols 1 1 5 "X" =
      .error (.tuning .invalidControlType) ∧
    sintonia_pid_cohen_coon 1 1 5 "MSE" "PID" =
      .error (.tuning .invalidCriterion) ∧
    sintonia_pid_cohen_coon 1 1 5 "IAE" "P" =
      .error (.tuning .invalidControlType) := by
  refine ⟨((C4_tuning_validation (-1) 1 5 "PID" "IAE" "PID").1
      (by norm_num)).1,
    ((C4_tuning_validation (-1) 1 5 "PID" "IAE" "PID").1 (by norm_num)).2.1,
    ((C4_tuning_validation 1 1 5 "X" "IAE" "PID").2.2.2.1 (by norm_num)
      (by norm_num) (by norm_num) (by decide)),
    ((C4_tuning_validation 1 1 5 "PID" "MSE" "PID").2.2.2.2.1 (by norm_num)
      (by norm_num) (by norm_num) (by decide)),
    ((C4_tuning_validation 1 1 5 "PID" "IAE" "P").2.2.2.2.2 (by norm_num)
      (by norm_num) (by norm_num) (by decide) (by decide))⟩

theorem map_fin_val (xs : List ℚ) :
    (xs.map PyFloat.fin).map PyFloat.val = xs := by
  induction xs with
  | nil => rfl
  | cons h t ih => simp [PyFloat.val, ih]

theorem calcular_ok (t y : List ℚ) (yref tol : ℚ)
    (h10 : 10 ≤ t.length) (hlen : t.length = y.length) (href : yref ≠ 0)
    (ht0 : 0 < tol) (ht1 : tol < 1) :
    calcular_metricas_respuesta (t.map PyFloat.fin) (y.map PyFloat.fin)
      yref tol = .ok (metricas_core t y yref tol) := by
  simp only [calcular_metricas_respuesta, List.length_map, map_fin_val]
  rw [if_neg (by omega), if_neg (by omega),
    if_neg (by simp [List.any_map, Function.comp, PyFloat.isfinite]),
    if_neg (by simp [List.any_map, Function.comp, PyFloat.isfinite]),
    if_neg href, if_neg (by push_neg; exact ⟨ht0, ht1⟩)]

theorem within_getD (y : List ℚ) (yref band : ℚ) (i : ℕ)
    (hi : i < y.length) :
    (y.map (fun v => decide (|v - yref| ≤ band))).getD i true =
      decide (|y.getD i 0 - yref| ≤ band) := by
  rw [List.getD_eq_getElem?_getD, List.getElem?_map,
    List.getElem?_eq_getElem hi, List.getD_eq_getElem?_getD,
    List.getElem?_eq_getElem hi]
  rfl

theorem any_id_map (g : ℚ → Bool) (y : List ℚ) :
    (y.map g).any id = y.any g := by
  induction y with
  | nil => rfl
  | cons h t ih => simp [ih]

theorem getD_eq_getElem (y : List ℚ) (i : ℕ) (hi : i < y.length) :
    y.getD i 0 = y[i] := by
  rw [List.getD_eq_getElem?_getD, List.getElem?_eq_getElem hi]
  rfl

theorem any_within_eq_true (y : List ℚ) (yref band : ℚ)
    (h : ∃ i, i < y.length ∧ |y.getD i 0 - yref| ≤ band) :
    (y.map (fun v => decide (|v - yref| ≤ band))).any id = true := by
  obtain ⟨i, hi, hband⟩ := h
  rw [any_id_map, List.any_eq_true]
  rw [getD_eq_getElem y i hi] at hband
  exact ⟨y[i], List.getElem_mem hi, by simpa using hband⟩

theorem any_within_eq_false (y : List ℚ) (yref band : ℚ)
    (h : ∀ i, i < y.length → band < |y.getD i 0 - yref|) :
    (y.map (fun v => decide (|v - yref| ≤ band))).any id = false := by
  rw [any_id_map, List.any_eq_false]
  intro v hv
  obtain ⟨i, hi, rfl⟩ := List.mem_iff_getElem.mp hv
  have hh := h i hi
  rw [getD_eq_getElem y i hi] at hh
  simpa using not_le.mpr hh

theorem getLast_filter_range (n j : ℕ) (p : ℕ → Bool) (hj : j < n)
    (hpj : p j = true) (hafter : ∀ i, j < i → i < n → p i = false) :
    ((List.range n).filter p).getLast? = some j := by
  have hn : n = (j + 1) + (n - (j + 1)) := by omega
  rw [hn, List.range_add, List.filter_append]
  have h2 : ((List.range (n - (j + 1))).map (fun x => (j + 1) + x)).filter
      p = [] := by
    rw [List.filter_eq_nil_iff]
    intro a ha
    obtain ⟨x, hx, rfl⟩ := List.mem_map.mp ha
    have hxlt : x < n - (j + 1) := List.mem_range.mp hx
    simp [hafter ((j + 1) + x) (by omega) (by omega)]
  rw [h2, List.append_nil, List.range_succ, List.filter_append]
  simp [hpj]

theorem settling_ts_all_within (t y : List ℚ) (yref band : ℚ)
    (hy : y ≠ [])
    (hall : ∀ i, i < y.length → |y.getD i 0 - yref| ≤ band) :
    settling_ts t y yref band = t.headD 0 := by
  have hlen : 0 < y.length := List.length_pos.mpr hy
  have hany : (y.map (fun v => decide (|v - yref| ≤ band))).any id = true :=
    any_within_eq_true y yref band ⟨0, hlen, hall 0 hlen⟩
  have hempty : ((List.range t.length).filter
      (fun i => ! (y.map (fun v => decide (|v - yref| ≤ band))).getD i
        true)) = [] := by
    rw [List.filter_eq_nil_iff]
    intro a ha
    have han : a < t.length := List.mem_range.mp ha
    by_cases hay : a < y.length
    · rw [within_getD y yref band a hay, getD_eq_getElem y a hay]
      have h := hall a hay
      rw [getD_eq_getElem y a hay] at h
      simp [h]
    · rw [List.getD_eq_getElem?_getD, List.getElem?_eq_none (by simpa using hay)]
      simp
  simp only [settling_ts, hany, Bool.true_eq_false, if_false, hempty,
    List.getLast?_nil]

theorem settling_ts_none_within (t y : List ℚ) (yref band : ℚ)
    (hnone : ∀ i, i < y.length → band < |y.getD i 0 - yref|) :
    settling_ts t y yref band = t.getLastD 0 := by
  have hany : (y.map (fun v => decide (|v - yref| ≤ band))).any id = false :=
    any_within_eq_false y yref band hnone
  simp only [settling_ts, hany, if_true]

theorem settling_ts_last_out (t y : List ℚ) (yref band : ℚ)
    (hlen : t.length = y.length) (j : ℕ) (hj : j < y.length)
    (hout : band < |y.getD j 0 - yref|)
    (hafter : ∀ i, j < i → i < y.length → |y.getD i 0 - yref| ≤ band)
    (hj1 : j + 1 < t.length) :
    settling_ts t y yref band = t.getD (j + 1) 0 := by
  have hj1y : j + 1 < y.length := by omega
  have hany : (y.map (fun v => decide (|v - yref| ≤ band))).any id = true :=
    any_within_eq_true y yref band
      ⟨j + 1, hj1y, hafter (j + 1) (by omega) hj1y⟩
  have hlast : ((List.range t.length).filter
      (fun i => ! (y.map (fun v => decide (|v - yref| ≤ band))).getD i
        true)).getLast? = some j := by
    apply getLast_filter_range t.length j _ (by omega)
    · rw [within_getD y yref band j hj, getD_eq_getElem y j hj]
      have h := hout
      rw [getD_eq_getElem y j hj] at h
      simp [not_le.mpr h]
    · intro i hji hin
      have hiy : i < y.length := by omega
      rw [within_getD y yref band i hiy, getD_eq_getElem y i hiy]
      have h := hafter i hji hiy
      rw [getD_eq_getElem y i hiy] at h
      simp [h]
  simp only [settling_ts, hany, Bool.true_eq_false, if_false, hlast,
    if_pos hj1]

theorem foldl_max_init_le (l : List ℚ) (a : ℚ) : a ≤ l.foldl max a := by
  induction l generalizing a with
  | nil => exact le_refl a
  | cons h t ih => exact le_trans (le_max_left a h) (ih (max a h))

theorem mem_le_foldl_max (l : List ℚ) (a v : ℚ) (hv : v ∈ l) :
    v ≤ l.foldl max a := by
  induction l generalizing a with
  | nil => cases hv
  | cons h t ih =>
      rcases List.mem_cons.mp hv with rfl | hvt
      · exact le_trans (le_max_right a v) (foldl_max_init_le t (max a v))
      · exact ih (max a h) hvt

theorem foldl_max_mem (l : List ℚ) (a : ℚ) :
    l.foldl max a = a ∨ l.foldl max a ∈ l := by
  induction l generalizing a with
  | nil => exact Or.inl rfl
  | cons h t ih =>
      rcases ih (max a h) with heq | hmem
      · rcases max_choice a h with hm | hm
        · exact Or.inl (by rw [List.foldl_cons, heq, hm])
        · exact Or.inr (by rw [List.foldl_cons, heq, hm]; exact List.mem_cons_self h t)
      · exact Or.inr (List.mem_cons_of_mem h hmem)

theorem le_listMaxD (y : List ℚ) (v : ℚ) (hv : v ∈ y) : v ≤ listMaxD y := by
  cases y with
  | nil => cases hv
  | cons h t =>
      rcases List.mem_cons.mp hv with rfl | hvt
      · exact foldl_max_init_le t v
      · exact mem_le_foldl_max t h v hvt

theorem listMaxD_mem (y : List ℚ) (hy : y ≠ []) : listMaxD y ∈ y := by
  cases y with
  | nil => exact absurd rfl hy
  | cons h t =>
      rcases foldl_max_mem t h with heq | hmem
      · rw [listMaxD, heq]; exact List.mem_cons_self h t
      · exact List.mem_cons_of_mem h hmem

theorem metricas_core_ts (t y : List ℚ) (yref tol : ℚ) :
    (metricas_core t y yref tol).lookup "ts" =
      some (settling_ts t y yref (tol * |yref|)) := by
  simp [metricas_core, List.lookup]

theorem metricas_core_y_max (t y : List ℚ) (yref tol : ℚ) :
    (metricas_core t y yref tol).lookup "y_max" = some (listMaxD y) := by
  simp [metricas_core, List.lookup]

theorem metricas_core_no_rise_time (t y : List ℚ) (yref tol : ℚ) :
    (metricas_core t y yref tol).lookup "rise_time" = none := by
  simp [metricas_core, List.lookup]

theorem metricas_core_no_peak_time (t y : List ℚ) (yref tol : ℚ) :
    (metricas_core t y yref tol).lookup "peak_time" = none := by
  simp [metricas_core, List.lookup]

/-- Sample inputs used by concrete instances: ten strictly increasing
times and an output that leaves the 5-percent band around the reference 1
for the last time at index 3. -/
def sample_t : List ℚ := [0, 1, 2, 3, 4, 5, 6, 7, 8, 9]

/-- Output trace companion to `sample_t`. -/
def sample_y : List ℚ := [2, 2, 2, 2, 1, 1, 1, 1, 1, 1]

/-- Claim C5: for every trace passing validation, settling_time is the
time of the sample immediately following the last sample whose error
exceeds tolerance*|reference| (whenever such a following sample exists);
it is time[first] when every sample is inside the band and time[last]
when no sample is ever inside the band. -/
theorem C5_settling_time (t y : List ℚ) (yref tol : ℚ)
    (h10 : 10 ≤ t.length) (hlen : t.length = y.length) (href : yref ≠ 0)
    (ht0 : 0 < tol) (ht1 : tol < 1) :
    calcular_metricas_respuesta (t.map PyFloat.fin) (y.map PyFloat.fin)
      yref tol = .ok (metricas_core t y yref tol) ∧
    (metricas_core t y yref tol).lookup "ts" =
      some (settling_ts t y yref (tol * |yref|)) ∧
    ((∀ i, i < y.length → |y.getD i 0 - yref| ≤ tol * |yref|) →
      settling_ts t y yref (tol * |yref|) = t.headD 0) ∧
    ((∀ i, i < y.length → tol * |yref| < |y.getD i 0 - yref|) →
      settling_ts t y yref (tol * |yref|) = t.getLastD 0) ∧
    (∀ j, j < y.length → tol * |yref| < |y.getD j 0 - yref| →
      (∀ i, j < i → i < y.length → |y.getD i 0 - yref| ≤ tol * |yref|) →
      j + 1 < t.length →
      settling_ts t y yref (tol * |yref|) = t.getD (j + 1) 0) := by
  have hy : y ≠ [] := by
    intro h
    subst h
    simp only [List.length_nil] at hlen
    omega
  refine ⟨calcular_ok t y yref tol h10 hlen href ht0 ht1,
    metricas_core_ts t y yref tol, ?_, ?_, ?_⟩
  · intro hall
    exact settling_ts_all_within t y yref (tol * |yref|) hy hall
  · intro hnone
    exact settling_ts_none_within t y yref (tol * |yref|) hnone
  · intro j hj hout hafter hj1
    exact settling_ts_last_out t y yref (tol * |yref|) hlen j hj hout
      hafter hj1

/-- Claim C5 (witness): on the sample trace the last sample outside the
5-percent band around 1 is at index 3, so the settling time is the time of
sample 4. -/
theorem C5_witness :
    calcular_metricas_respuesta (sample_t.map PyFloat.fin)
      (sample_y.map PyFloat.fin) 1 (1 / 20) =
      .ok (metricas_core sample_t sample_y 1 (1 / 20)) ∧
    settling_ts sample_t sample_y 1 (1 / 20 * |(1 : ℚ)|) =
      sample_t.getD 4 0 := by
  have h := C5_settling_time sample_t sample_y 1 (1 / 20)
    (by decide) (by decide) (by norm_num) (by norm_num) (by norm_num)
  refine ⟨h.1, h.2.2.2.2 3 (by decide) ?_ ?_ (by decide)⟩
  · show (1 / 20 : ℚ) * |(1 : ℚ)| < |(2 : ℚ) - 1|
    norm_num
  · intro i h3 h10
    rw [show sample_y.length = 10 from rfl] at h10
    interval_cases i
    all_goals (show |(1 : ℚ) - 1| ≤ (1 / 20 : ℚ) * |(1 : ℚ)|; norm_num)

/-- Claim C6 (counterexample): a valid trace for which the metrics call
succeeds, yet the returned dictionary has no "rise_time" and no
"peak_time" entry — the implemented extractor never computes them. -/
theorem C6_counterexample :
    calcular_metricas_respuesta (sample_t.map PyFloat.fin)
      (sample_y.map PyFloat.fin) 1 (1 / 20) =
      .ok (metricas_core sample_t sample_y 1 (1 / 20)) ∧
    (metricas_core sample_t sample_y 1 (1 / 20)).lookup "rise_time" =
      none ∧
    (metricas_core sample_t sample_y 1 (1 / 20)).lookup "peak_time" =
      none :=
  ⟨calcular_ok sample_t sample_y 1 (1 / 20) (by decide) (by decide)
      (by norm_num) (by norm_num) (by norm_num),
    metricas_core_no_rise_time sample_t sample_y 1 (1 / 20),
    metricas_core_no_peak_time sample_t sample_y 1 (1 / 20)⟩

/-- Claim C6 (amended): for every trace passing validation, the metrics
result contains the peak value — key "y_max", equal to max(output) — but
it contains no rise_time and no peak_time entries; those appear only in
the unimplemented API skeleton. -/
theorem C6_peak_value_only (t y : List ℚ) (yref tol : ℚ)
    (h10 : 10 ≤ t.length) (hlen : t.length = y.length) (href : yref ≠ 0)
    (ht0 : 0 < tol) (ht1 : tol < 1) :
    calcular_metricas_respuesta (t.map PyFloat.fin) (y.map PyFloat.fin)
      yref tol = .ok (metricas_core t y yref tol) ∧
    (metricas_core t y yref tol).lookup "y_max" = some (listMaxD y) ∧
    listMaxD y ∈ y ∧
    (∀ v ∈ y, v ≤ listMaxD y) ∧
    (metricas_core t y yref tol).lookup "rise_time" = none ∧
    (metricas_core t y yref tol).lookup "peak_time" = none := by
  have hy : y ≠ [] := by
    intro h
    subst h
    simp only [List.length_nil] at hlen
    omega
  exact ⟨calcular_ok t y yref tol h10 hlen href ht0 ht1,
    metricas_core_y_max t y yref tol,
    listMaxD_mem y hy,
    fun v hv => le_listMaxD y v hv,
    metricas_core_no_rise_time t y yref tol,
    metricas_core_no_peak_time t y yref tol⟩

/-- Claim C6 (witness): the amended theorem applied at the sample trace;
its maximum output value 2 is reported under "y_max". -/
theorem C6_witness :
    (metricas_core sample_t sample_y 1 (1 / 20)).lookup "y_max" =
      some (listMaxD sample_y) ∧
    listMaxD sample_y ∈ sample_y := by
  have h := C6_peak_value_only sample_t sample_y 1 (1 / 20)
    (by decide) (by decide) (by norm_num) (by norm_num) (by norm_num)
  exact ⟨h.2.1, h.2.2.1⟩

/-- Claim C7: the metrics operation fails (returns no metrics dictionary)
exactly when the time vector has fewer than 10 samples, or the lengths
mismatch, or a non-finite value occurs in time or output, or the reference
is 0, or the tolerance is outside the open interval (0, 1); otherwise it
succeeds. -/
theorem C7_metrics_validation (t y : List PyFloat) (yref tol : ℚ) :
    (∃ m, calcular_metricas_respuesta t y yref tol = .ok m) ↔
      ¬(t.length < 10 ∨ t.length ≠ y.length ∨
        (∃ x ∈ t, x.isfinite = false) ∨ (∃ x ∈ y, x.isfinite = false) ∨
        yref = 0 ∨ tol ≤ 0 ∨ 1 ≤ tol) := by
  have hfin : ∀ l : List PyFloat,
      (l.any (fun x => ! x.isfinite) = true) ↔
        (∃ x ∈ l, x.isfinite = false) := by
    intro l
    rw [List.any_eq_true]
    constructor
    · rintro ⟨x, hx, hb⟩
      exact ⟨x, hx, by revert hb; cases x.isfinite <;> simp⟩
    · rintro ⟨x, hx, hb⟩
      exact ⟨x, hx, by rw [hb]; rfl⟩
  unfold calcular_metricas_respuesta
  split_ifs with h1 h2 h3 h4 h5 h6
  · exact iff_of_false (by simp) (by simp [h1])
  · exact iff_of_false (by simp) (by simp [h2])
  · exact iff_of_false (by simp) (by simp [(hfin t).mp h3])
  · exact iff_of_false (by simp) (by simp [(hfin y).mp h4])
  · exact iff_of_false (by simp) (by simp [h5])
  · refine iff_of_false (by simp) ?_
    rcases h6 with h6 | h6
    · simp [h6]
    · simp [h6]
  · refine iff_of_true ⟨_, rfl⟩ ?_
    push_neg
    have hft : ∀ x ∈ t, x.isfinite = true := by
      intro x hx
      by_contra hxf
      exact h3 ((hfin t).mpr ⟨x, hx, by revert hxf; cases x.isfinite <;> simp⟩)
    have hfy : ∀ x ∈ y, x.isfinite = true := by
      intro x hx
      by_contra hxf
      exact h4 ((hfin y).mpr ⟨x, hx, by revert hxf; cases x.isfinite <;> simp⟩)
    have h6' := not_or.mp h6
    refine ⟨by omega, not_ne_iff.mp h2, ?_, ?_, h5,
      lt_of_not_le h6'.1, lt_of_not_le h6'.2⟩
    · intro x hx
      rw [hft x hx]
      simp
    · intro x hx
      rw [hfy x hx]
      simp

/-- Claim C8: for first-order denominators [a, b] (a ≠ 0) — the fragment on
which the external root-finder is modelled — is_stable returns true iff
every complex root of the denominator polynomial has real part strictly
below -tolerance; in particular 1/(s+1) (pole -1) is stable and 1/(s-1)
(pole +1) is unstable at the default tolerance 1e-10. -/
theorem C8_is_stable_iff_poles (num : List ℚ) (a b tol : ℚ) (ha : a ≠ 0) :
    (is_stable ⟨num, [a, b]⟩ tol = true ↔
      ∀ z : ℂ, IsRootC [a, b] z → z.re < ((-tol : ℚ) : ℝ)) ∧
    is_stable ⟨[1], [1, 1]⟩ = true ∧
    is_stable ⟨[1], [1, -1]⟩ = false := by
  have haC : (a : ℂ) ≠ 0 := by exact_mod_cast ha
  have hroot : ∀ z : ℂ, IsRootC [a, b] z ↔ (a : ℂ) * z + (b : ℂ) = 0 := by
    intro z
    simp [IsRootC]
  have hsolve : ∀ z : ℂ, (a : ℂ) * z + (b : ℂ) = 0 ↔
      z = ((-b / a : ℚ) : ℂ) := by
    intro z
    constructor
    · intro h
      have hz : z = -(b : ℂ) / (a : ℂ) := by
        field_simp
        linear_combination h
      rw [hz]
      push_cast
      ring
    · intro h
      rw [h]
      push_cast
      field_simp
      ring
  have h1 : is_stable ⟨num, [a, b]⟩ tol = true ↔ (-b / a : ℚ) < -tol := by
    simp [is_stable, get_poles, ha]
  refine ⟨?_, ?_, ?_⟩
  · rw [h1]
    constructor
    · intro hlt z hz
      rw [hroot z, hsolve z] at hz
      rw [hz, Complex.ratCast_re]
      exact_mod_cast hlt
    · intro hall
      have h := hall ((-b / a : ℚ) : ℂ) (by rw [hroot, hsolve])
      rw [Complex.ratCast_re] at h
      exact_mod_cast h
  · simp [is_stable, get_poles]
    norm_num
  · simp [is_stable, get_poles]
    norm_num

/-- Claim C8 (witness): the theorem applied at the first-order denominator
s + 1, together with its literal instances. -/
theorem C8_witness :
    is_stable ⟨[1], [1, 1]⟩ = true ∧ is_stable ⟨[1], [1, -1]⟩ = false :=
  ⟨(C8_is_stable_iff_poles [1] 1 1 (1 / 10000000000)
      (by norm_num)).2.1,
   (C8_is_stable_iff_poles [1] 1 1 (1 / 10000000000)
      (by norm_num)).2.2⟩

/-- Claim C9: the open-loop step-response simulation fails with the
UnstableSystem-kind error — producing no trace — exactly on the stability
check: an unstable transfer function always yields that error, and a
stable one never does. -/
theorem C9_unstable_rejected (tf : TransferFunction) (t_final : Option ℚ)
    (num_points : ℤ) (im : ℚ) :
    (is_stable tf = false →
      simulate_step_response_horizon (some tf) t_final num_points im =
        .error .unstable) ∧
    (is_stable tf = true →
      simulate_step_response_horizon (some tf) t_final num_points im ≠
        .error .unstable) := by
  constructor
  · intro h
    simp only [simulate_step_response_horizon]
    rw [h, if_pos rfl]
  · intro h
    simp only [simulate_step_response_horizon]
    rw [h, if_neg (by simp)]
    cases t_final with
    | none => split_ifs <;> simp
    | some v =>
        by_cases h1 : num_points < 10
        · simp [h1]
        · by_cases h2 : im ≤ 0
          · simp [h1, h2]
          · by_cases h3 : v ≤ 0 <;> simp [h1, h2, h3]

/-- Claim C9 (witness): the theorem applied at the unstable system
1/(s-1) and the stable system 1/(s+1). -/
theorem C9_witness :
    simulate_step_response_horizon (some ⟨[1], [1, -1]⟩) none 1000 1 =
      .error .unstable ∧
    simulate_step_response_horizon (some ⟨[1], [1, 1]⟩) (some 10) 1000 1 ≠
      .error .unstable :=
  ⟨(C9_unstable_rejected ⟨[1], [1, -1]⟩ none 1000 1).1
      (by simp [is_stable, get_poles]; norm_num),
   (C9_unstable_rejected ⟨[1], [1, 1]⟩ (some 10) 1000 1).2
      (by simp [is_stable, get_poles]; norm_num)⟩

/-- Claim C10 (counterexample): for the stable system 1/(s+1) the settling
estimate is min(5/|Re(-1)|, 1000) = 5, yet a requested t_final of 1 is
used as-is — the simulated horizon 1 is strictly below the estimate, so
the horizon is not auto-extended. -/
theorem C10_counterexample :
    simulate_step_response_horizon (some ⟨[1], [1, 1]⟩) (some 1) 1000 1 =
      .ok 1 ∧
    estimate_settling_time ⟨[1], [1, 1]⟩ = 5 ∧
    (1 : ℚ) < 5 := by
  refine ⟨?_, ?_, by norm_num⟩
  · simp only [simulate_step_response_horizon]
    rw [if_neg (by simp [is_stable, get_poles]; norm_num)]
    norm_num
  · simp only [estimate_settling_time, get_poles]
    norm_num

/-- Claim C10 (amended): the settling-time estimate
min(5/|Re(slowest pole)|, 1000) is used as the simulation horizon only
when the caller does not supply t_final; a supplied positive t_final is
used unchanged, never extended. -/
theorem C10_horizon_only_when_unset (tf : TransferFunction) (p : CRat)
    (num_points : ℤ) (im : ℚ) (hst : is_stable tf = true)
    (hnp : ¬ num_points < 10) (him : 0 < im) (hp : get_poles tf = [p]) :
    (∀ v : ℚ, 0 < v →
      simulate_step_response_horizon (some tf) (some v) num_points im =
        .ok v) ∧
    simulate_step_response_horizon (some tf) none num_points im =
      .ok (min (5 / |p.re|) 1000) ∧
    estimate_settling_time tf = min (5 / |p.re|) 1000 := by
  have hre : p.re < 0 := by
    have h := hst
    rw [is_stable, hp] at h
    simp only [List.all_cons, List.all_nil, Bool.and_true,
      decide_eq_true_eq] at h
    have htol : (0 : ℚ) < 1 / 10000000000 := by norm_num
    linarith
  have hest : estimate_settling_time tf = min (5 / |p.re|) 1000 := by
    rw [estimate_settling_time, hp]
    simp only [List.map_nil, List.foldl_nil]
    rw [if_neg (not_le.mpr hre), abs_of_neg hre, neg_div, div_neg]
  refine ⟨?_, ?_, hest⟩
  · intro v hv
    simp only [simulate_step_response_horizon]
    rw [hst, if_neg (by simp), if_neg hnp, if_neg (not_le.mpr him),
      if_neg (not_le.mpr hv)]
  · simp only [simulate_step_response_horizon]
    rw [hst, if_neg (by simp), if_neg hnp, if_neg (not_le.mpr him), hest]

/-- Claim C10 (witness): the amended theorem applied to 2/(10s+1) — pole
-1/10, estimate min(50, 1000) = 50: a requested horizon of 2 is kept,
while an unset horizon becomes 50. -/
theorem C10_witness :
    simulate_step_response_horizon (some ⟨[2], [10, 1]⟩) (some 2) 1000 1 =
      .ok 2 ∧
    simulate_step_response_horizon (some ⟨[2], [10, 1]⟩) none 1000 1 =
      .ok 50 := by
  have h := C10_horizon_only_when_unset ⟨[2], [10, 1]⟩ ⟨-1 / 10, 0⟩ 1000 1
    (by simp [is_stable, get_poles]; norm_num) (by norm_num) (by norm_num)
    (by simp [get_poles])
  refine ⟨h.1 2 (by norm_num), ?_⟩
  rw [h.2.1]
  rw [show |({ re := -1 / 10, im := 0 } : CRat).re| = 1 / 10 from by
    rw [show ({ re := -1 / 10, im := 0 } : CRat).re = -1 / 10 from rfl]
    rw [abs_of_neg (by norm_num)]
    norm_num]
  norm_num
